import Mathlib

/-!
Verification of the feature-engineering + prediction/confidence pipeline of
the `bucket-props` repository (`src/scripts/predict.py`, with the training
variant of one feature from `src/scripts/train.py`).

Numeric values (pandas floats) are embedded as rationals.  The external
numeric routines `math.sqrt` and `scipy.stats.norm.cdf`, as well as the
trained regressor `model.predict`, are opaque collaborators of the core and
are embedded as function parameters; theorems that need facts about them
state those facts as hypotheses (they are true of the real square root and
of the standard normal CDF).
-/

namespace BucketProps

/-- Python 3 `round` / numpy rounding: round half to even, embedded on `ℚ`. -/
def pyRound (x : ℚ) : ℤ :=
  if Int.fract x = 1/2 then (if ⌊x⌋ % 2 = 0 then ⌊x⌋ else ⌊x⌋ + 1) else round x

/-- Python `round(x, 1)` (used for the reported `predicted` value). -/
def roundTo1 (x : ℚ) : ℚ := (pyRound (x * 10) : ℚ) / 10

/-- Mean of a pandas column over the listed values (`.mean()`). -/
def listMean (xs : List ℚ) : ℚ := xs.sum / (xs.length : ℚ)

/-- Pandas sample variance with `ddof=1` (`.var()`); the `length < 2` NaN
cases are exercised by no claim. -/
def sampleVar (xs : List ℚ) : ℚ :=
  (xs.map (fun x => (x - listMean xs)^2)).sum / ((xs.length : ℚ) - 1)

/-- Pandas `.std()`: square root (the external numeric routine `sq`) of the
sample variance. -/
def sampleStd (sq : ℚ → ℚ) (xs : List ℚ) : ℚ := sq (sampleVar xs)

/-- The trailing window `rolling(k)` looks at for row `i` (0-based, on the
date-sorted column): rows `i-k+1 … i`; `none` while fewer than `k`
observations are available (pandas NaN). -/
def window (xs : List ℚ) (k i : ℕ) : Option (List ℚ) :=
  if k ≤ i + 1 ∧ i < xs.length then some ((xs.take (i+1)).drop (i+1-k)) else none

/-- `col.rolling(k).mean()` at row `i`. -/
def rollingMean (xs : List ℚ) (k i : ℕ) : Option ℚ := (window xs k i).map listMean

/-- `col.rolling(k).std()` at row `i`. -/
def rollingStd (sq : ℚ → ℚ) (xs : List ℚ) (k i : ℕ) : Option ℚ :=
  (window xs k i).map (sampleStd sq)

/-- `col.expanding().mean()` as the running aggregation pandas performs:
carry the running sum `s` over `n` previous values down the column. -/
def expandingMeansAux (s : ℚ) (n : ℕ) : List ℚ → List ℚ
  | [] => []
  | x :: xs => ((s + x) / ((n + 1 : ℕ) : ℚ)) :: expandingMeansAux (s + x) (n + 1) xs

/-- `col.expanding().mean()` for a whole column. -/
def expandingMeans (xs : List ℚ) : List ℚ := expandingMeansAux 0 0 xs

/-- One game of one player, a row of the cached game log.  All original
columns are present (non-NaN), so only the derived columns decide dropping. -/
structure GameRecord where
  date : ℤ        -- GAME_DATE, as a day number
  pts : ℚ         -- PTS
  min : ℚ         -- MIN
  fga : ℚ         -- FGA
  matchup : String -- MATCHUP
  deriving DecidableEq, Repr

/-- Scanner for the literal two-character pattern `vs` in a character list. -/
def hasVsChars : List Char → Bool
  | [] => false
  | c :: rest => (c == 'v' && rest.head? == some 's') || hasVsChars rest

/-- `df["MATCHUP"].str.contains("vs")`: literal substring containment. -/
def containsVs (s : String) : Bool := hasVsChars s.toList

/-- `df["MATCHUP"].str.contains("vs").astype(int)`. -/
def homeFlag (matchup : String) : ℚ := if containsVs matchup then 1 else 0

/-- `df["GAME_DATE"].diff().dt.days` at row `i`: day difference against the
previous row; NaN (`none`) on the first row. -/
def restDays (s : List GameRecord) (i : ℕ) : Option ℚ :=
  if h : 1 ≤ i ∧ i < s.length then
    some ((((s.get ⟨i, h.2⟩).date - (s.get ⟨i - 1, by omega⟩).date : ℤ) : ℚ))
  else none

/-- One row of the engineered frame after `dropna()`: every derived column
is defined.  `pts` keeps the original PTS column (the frame retains it). -/
structure FeatRow where
  pts : ℚ
  pts_last5 : ℚ
  pts_last10 : ℚ
  pts_std_5 : ℚ
  season_pts_avg : ℚ
  min_last5 : ℚ
  min_last10 : ℚ
  minutes_trend : ℚ
  fga_last5 : ℚ
  fga_last10 : ℚ
  fga_trend : ℚ
  home_flag : ℚ
  rest_days : ℚ
  back_to_back : ℚ
  deriving DecidableEq, Repr

/-- Row `i` of the engineered frame over the date-sorted history `s`:
each derived column of `engineer_features` (predict.py lines 71-86), with
`none` wherever pandas produces NaN; the row survives `dropna()` iff every
column is defined. `back_to_back` is `(rest_days == 1)` (NaN compares
unequal, but that row is dropped for its NaN `rest_days` anyway). -/
def featRowAt (sq : ℚ → ℚ) (s : List GameRecord) (i : ℕ) : Option FeatRow :=
  (s[i]?).bind fun g =>
  (rollingMean (s.map (·.pts)) 5 i).bind fun pts_last5 =>
  (rollingMean (s.map (·.pts)) 10 i).bind fun pts_last10 =>
  (rollingStd sq (s.map (·.pts)) 5 i).bind fun pts_std_5 =>
  ((expandingMeans (s.map (·.pts)))[i]?).bind fun season_pts_avg =>
  (rollingMean (s.map (·.min)) 5 i).bind fun min_last5 =>
  (rollingMean (s.map (·.min)) 10 i).bind fun min_last10 =>
  (rollingMean (s.map (·.fga)) 5 i).bind fun fga_last5 =>
  (rollingMean (s.map (·.fga)) 10 i).bind fun fga_last10 =>
  (restDays s i).bind fun rest_days =>
  some { pts := g.pts, pts_last5 := pts_last5, pts_last10 := pts_last10,
         pts_std_5 := pts_std_5, season_pts_avg := season_pts_avg,
         min_last5 := min_last5, min_last10 := min_last10,
         minutes_trend := min_last5 - min_last10,
         fga_last5 := fga_last5, fga_last10 := fga_last10,
         fga_trend := fga_last5 - fga_last10,
         home_flag := homeFlag g.matchup, rest_days := rest_days,
         back_to_back := if rest_days = 1 then 1 else 0 }

/-- `df.sort_values("GAME_DATE")` (stable, ascending). -/
def sortByDate (df : List GameRecord) : List GameRecord :=
  df.insertionSort (fun a b => a.date ≤ b.date)

/-- `engineer_features` of predict.py: sort by date, derive every column,
`dropna()`. -/
def engineer_features (sq : ℚ → ℚ) (df : List GameRecord) : List FeatRow :=
  let s := sortByDate df
  (List.range s.length).filterMap (featRowAt sq s)

/-! ### Confidence engine (predict.py lines 205-231) -/

/-- Line 213-217: `std = max(0.7 * latest["pts_std_5"] + 0.3 * df["PTS"].std(), 3.0)`. -/
def stdCombined (recent_std season_std : ℚ) : ℚ :=
  max (0.7 * recent_std + 0.3 * season_std) 3.0

/-- Line 218: `effective_std = sqrt(std**2 + model_mae**2)`; `sq` is `math.sqrt`. -/
def effective_stdOf (sq : ℚ → ℚ) (recent_std season_std mae : ℚ) : ℚ :=
  sq ((stdCombined recent_std season_std)^2 + mae^2)

/-- Line 220: `z = diff / max(effective_std, 1.0)` with `diff = pred - line`. -/
def zOf (sq : ℚ → ℚ) (pred line recent_std season_std mae : ℚ) : ℚ :=
  (pred - line) / max (effective_stdOf sq recent_std season_std mae) 1.0

/-- Line 224: `pick = "OVER" if prob_over >= 0.5 else "UNDER"`. -/
def pickOf (prob_over : ℚ) : String :=
  if prob_over ≥ 0.5 then "OVER" else "UNDER"

/-- Lines 225-231: `confidence = int(round(prob_over * 100))`, complemented
for UNDER, then `confidence = min(confidence, 80)`. -/
def confidenceOf (prob_over : ℚ) : ℤ :=
  let c0 : ℤ := pyRound (prob_over * 100)
  let c1 : ℤ := if pickOf prob_over = "UNDER" then 100 - c0 else c0
  min c1 80

/-! ### Pipeline orchestrator (`make_predictions`, predict.py lines 181-243) -/

/-- One normalized prop from `get_prizepicks` (only the fields
`make_predictions` reads). -/
structure PropLine where
  player : String
  line : ℚ
  team : Option String
  opponent : Option String
  game_time : Option String
  deriving DecidableEq, Repr

/-- One output record appended to `picks` (predict.py lines 234-241). -/
structure PredictionRecord where
  player : String
  line : ℚ
  predicted : ℚ
  pick : String
  confidence : ℤ
  game_time : Option String
  deriving DecidableEq, Repr

/-- Contents of `model_meta.json` as far as the pipeline reads it: the
`"mae"` key, `none` when the key is absent (Python `meta["mae"]` raises). -/
structure MetaJson where
  mae : Option ℚ
  deriving DecidableEq, Repr

/-- Uncaught Python exceptions the per-prop loop can raise: `open(META_PATH)`
(FileNotFoundError) and `meta["mae"]` (KeyError). -/
inductive PredictError where
  | meta_file_missing
  | mae_key_missing
  deriving DecidableEq, Repr

/-- The pipeline's external collaborators: the static player table behind
`lookup_nba_player_id` (`None` when no name matches; NBA ids are nonzero, so
Python's falsy test `if not player_id` coincides with `none`),
`load_or_fetch_player_games` (always returns a frame, possibly empty),
the trained regressor `model.predict` on the 13 FEATURES columns,
the `model_meta.json` file (`none` when the file does not exist),
`math.sqrt`, and `scipy.stats.norm.cdf`. -/
structure PipelineEnv where
  lookup_nba_player_id : String → Option ℕ
  load_or_fetch_player_games : ℕ → String → List GameRecord
  model_predict : FeatRow → ℚ
  meta_file : Option MetaJson
  sqrt : ℚ → ℚ
  norm_cdf : ℚ → ℚ

/-- The body of the `for prop in props` loop of `make_predictions`:
`.ok none` models a `continue` (skipped prop), `.error` an uncaught
exception aborting the run. -/
def process_prop (env : PipelineEnv) (prop : PropLine) : Except PredictError (Option PredictionRecord) :=
  match env.lookup_nba_player_id prop.player with
  | none => .ok none
  | some player_id =>
    let df := env.load_or_fetch_player_games player_id prop.player
    if df.isEmpty then .ok none
    else
      let feats := engineer_features env.sqrt df
      match feats.getLast? with   -- `latest = df.iloc[-1]` after the empty check
      | none => .ok none
      | some latest =>
        let pred := env.model_predict latest
        match env.meta_file with   -- `with open(META_PATH) as f: meta = json.load(f)`
        | none => .error .meta_file_missing
        | some meta =>
          match meta.mae with      -- `model_mae = meta["mae"]`
          | none => .error .mae_key_missing
          | some model_mae =>
            let season_std := sampleStd env.sqrt (feats.map (·.pts))
            let z := zOf env.sqrt pred prop.line latest.pts_std_5 season_std model_mae
            let prob_over := env.norm_cdf z
            .ok (some { player := prop.player, line := prop.line,
                        predicted := roundTo1 pred,
                        pick := pickOf prob_over,
                        confidence := confidenceOf prob_over,
                        game_time := prop.game_time })

/-- `make_predictions`: fold `process_prop` over the props in feed order,
collecting the appended records; an uncaught exception aborts the whole run. -/
def make_predictions (env : PipelineEnv) : List PropLine → Except PredictError (List PredictionRecord)
  | [] => .ok []
  | prop :: rest =>
    match process_prop env prop with
    | .error e => .error e
    | .ok none => make_predictions env rest
    | .ok (some r) =>
      match make_predictions env rest with
      | .error e => .error e
      | .ok picks => .ok (r :: picks)

/-! ### Training-variant of `season_pts_avg` (train.py line 74) -/

/-- One row of the training frame, as far as the `season_pts_avg` column is
concerned: the SEASON label and PTS. -/
structure TrainRow where
  season : String
  pts : ℚ
  deriving DecidableEq, Repr

/-- The per-group means `groupby("SEASON")["PTS"].mean()`: one entry per
distinct SEASON label. -/
def seasonGroupMeans (rows : List TrainRow) : List (String × ℚ) :=
  ((rows.map (·.season)).dedup).map
    (fun s => (s, listMean ((rows.filter (fun g => g.season == s)).map (·.pts))))

/-- `groupby("SEASON")["PTS"].transform("mean")` (train.py line 74): broadcast
each group's mean back onto its rows. -/
def seasonTransformMean (rows : List TrainRow) : List ℚ :=
  rows.map (fun g => ((seasonGroupMeans rows).lookup g.season).getD 0)

/-! ### Concrete sample data (for closed evaluations) -/

/-- A ten-game history, already date-ascending. -/
def hist10 : List GameRecord :=
  [⟨0, 10, 30, 10, "AAA vs. BBB"⟩, ⟨1, 12, 31, 11, "AAA @ BBB"⟩,
   ⟨2, 14, 32, 12, "AAA vs. BBB"⟩, ⟨3, 16, 30, 10, "AAA @ BBB"⟩,
   ⟨4, 18, 33, 13, "AAA vs. BBB"⟩, ⟨5, 20, 34, 14, "AAA @ BBB"⟩,
   ⟨6, 22, 30, 10, "AAA vs. BBB"⟩, ⟨7, 24, 35, 15, "AAA @ BBB"⟩,
   ⟨8, 26, 30, 10, "AAA vs. BBB"⟩, ⟨9, 28, 36, 16, "AAA @ BBB"⟩]

/-- A nine-game history (one shy of the 10-game rolling window). -/
def hist9 : List GameRecord := hist10.take 9

/-- A sample prop. -/
def propEx : PropLine := ⟨"Test Player", 20, none, none, some "t"⟩

/-- Environment whose `model_meta.json` file does not exist; everything
else resolves. -/
def envC1 : PipelineEnv :=
  { lookup_nba_player_id := fun _ => some 1,
    load_or_fetch_player_games := fun _ _ => hist10,
    model_predict := fun _ => 25,
    meta_file := none,
    sqrt := fun _ => 5,
    norm_cdf := fun _ => 1/2 }

/-- Fully working environment (metadata present with `mae = 3`). -/
def envW : PipelineEnv := { envC1 with meta_file := some ⟨some 3⟩ }

/-- Working environment whose player lookup matches nothing. -/
def envSkip : PipelineEnv := { envW with lookup_nba_player_id := fun _ => none }

/-- Working environment whose cached history has only nine games. -/
def env9 : PipelineEnv := { envW with load_or_fetch_player_games := fun _ _ => hist9 }

/-- The record the working run `make_predictions envW [propEx]` emits. -/
def recW : PredictionRecord :=
  { player := "Test Player", line := 20, predicted := 25, pick := "OVER",
    confidence := 50, game_time := some "t" }

/-- All-zero feature row (a `getD` default only). -/
def featRow0 : FeatRow := ⟨0, 0, 0, 0, 0, 0, 0, 0, 0, 0, 0, 0, 0, 0⟩

/-- The single eligible feature row of `hist10` (reference game = row 9). -/
def r10ex : FeatRow := (featRowAt (fun _ => 0) hist10 9).getD featRow0

/-- The square root used by the C3 witness (constant at the one queried
point). -/
def sqW : ℚ → ℚ := fun _ => 21/4

/-- The normal-CDF stand-in used by the C3 witness; it satisfies the stated
CDF facts at the one queried point. -/
def cdfW : ℚ → ℚ := fun x => if (19/20 : ℚ) ≤ x then 159/200 else 0

/-- Sample training rows over two SEASON labels. -/
def trainRowsEx : List TrainRow := [⟨"2024-25", 10⟩, ⟨"2024-25", 20⟩, ⟨"2023-24", 30⟩]

/-! ### Spec-side definitions (refinement targets, from the spec's words) -/

/-- Modelled from the spec: "`season_pts_avg`: running mean of points over
all games up to and including the reference game (expanding mean) for
single-game prediction". -/
def seasonAvgSpecLive (pts : List ℚ) (i : ℕ) : ℚ := listMean (pts.take (i+1))

/-- Modelled from the spec: "for training, mean of points within the same
season label". -/
def seasonAvgSpecTrain (rows : List TrainRow) (g : TrainRow) : ℚ :=
  listMean ((rows.filter (fun g2 => g2.season == g.season)).map (·.pts))

/-! ### Rounding and confidence bounds -/

theorem floor_half_of_fract {x : ℚ} (h : Int.fract x = 1/2) : x = (⌊x⌋ : ℚ) + 1/2 := by
  have h2 := Int.floor_add_fract x
  rw [h] at h2
  linarith

theorem intCast_le_pyRound {n : ℤ} {x : ℚ} (h : (n : ℚ) ≤ x) : n ≤ pyRound x := by
  unfold pyRound
  split
  · rename_i hf
    have hx := floor_half_of_fract hf
    have hn : n ≤ ⌊x⌋ := by
      by_contra hc
      push_neg at hc
      have : (⌊x⌋ : ℚ) + 1 ≤ (n : ℚ) := by exact_mod_cast hc
      linarith
    split <;> omega
  · rw [round_eq, Int.le_floor]
    linarith

theorem pyRound_le_intCast {n : ℤ} {x : ℚ} (h : x ≤ (n : ℚ)) : pyRound x ≤ n := by
  unfold pyRound
  split
  · rename_i hf
    have hx := floor_half_of_fract hf
    have hn : ⌊x⌋ + 1 ≤ n := by
      by_contra hc
      push_neg at hc
      have : (n : ℚ) ≤ (⌊x⌋ : ℚ) := by exact_mod_cast Int.lt_add_one_iff.mp hc
      linarith
    split <;> omega
  · rw [round_eq]
    have : ⌊x + 1/2⌋ < n + 1 := by
      rw [Int.floor_lt]
      push_cast
      linarith
    omega

theorem pyRound_ge_eighty {x : ℚ} (h : (159/2 : ℚ) ≤ x) : 80 ≤ pyRound x := by
  unfold pyRound
  split
  · rename_i hf
    have hx := floor_half_of_fract hf
    have hn : 79 ≤ ⌊x⌋ := by
      by_contra hc
      push_neg at hc
      have : (⌊x⌋ : ℚ) + 1 ≤ (79 : ℚ) := by exact_mod_cast hc
      linarith
    split <;> omega
  · rw [round_eq, Int.le_floor]
    push_cast
    linarith

theorem confidenceOf_bounds (p : ℚ) (h0 : 0 ≤ p) :
    50 ≤ confidenceOf p ∧ confidenceOf p ≤ 80 := by
  by_cases hp : p ≥ 0.5
  · simp only [confidenceOf, pickOf, if_pos hp]
    rw [if_neg (by decide : ¬("OVER" : String) = "UNDER")]
    have hlo : (50 : ℤ) ≤ pyRound (p * 100) := by
      apply intCast_le_pyRound
      push_cast
      norm_num at hp ⊢
      linarith
    exact ⟨le_min hlo (by norm_num), min_le_right _ _⟩
  · simp only [confidenceOf, pickOf, if_neg hp]
    rw [if_pos trivial]
    push_neg at hp
    have hhi : pyRound (p * 100) ≤ 50 := by
      apply pyRound_le_intCast
      push_cast
      norm_num at hp ⊢
      linarith
    have hlo : (0 : ℤ) ≤ pyRound (p * 100) := by
      apply intCast_le_pyRound
      push_cast
      positivity
    exact ⟨le_min (by omega) (by norm_num), min_le_right _ _⟩

/-! ### Rolling-window and expanding-mean characterizations -/

theorem rollingMean_eq_some {xs : List ℚ} {k i : ℕ} (h1 : k ≤ i + 1) (h2 : i < xs.length) :
    rollingMean xs k i = some (listMean ((xs.take (i+1)).drop (i+1-k))) := by
  simp [rollingMean, window, h1, h2]

theorem rollingStd_eq_some {sq : ℚ → ℚ} {xs : List ℚ} {k i : ℕ} (h1 : k ≤ i + 1)
    (h2 : i < xs.length) :
    rollingStd sq xs k i = some (sampleStd sq ((xs.take (i+1)).drop (i+1-k))) := by
  simp [rollingStd, window, h1, h2]

theorem rollingMean_eq_none {xs : List ℚ} {k i : ℕ} (h : ¬ (k ≤ i + 1 ∧ i < xs.length)) :
    rollingMean xs k i = none := by
  simp [rollingMean, window, h]

theorem rollingMean_isSome {xs : List ℚ} {k i : ℕ} (h2 : i < xs.length) :
    (rollingMean xs k i).isSome ↔ k - 1 ≤ i := by
  by_cases h1 : k ≤ i + 1
  · rw [rollingMean_eq_some h1 h2]
    simp
    omega
  · rw [rollingMean_eq_none (by tauto)]
    simp
    omega

theorem restDays_eq_some {s : List GameRecord} {i : ℕ} (h1 : 1 ≤ i) (h2 : i < s.length) :
    restDays s i = some (((s.get ⟨i, h2⟩).date - (s.get ⟨i - 1, by omega⟩).date : ℤ) : ℚ) := by
  simp [restDays, h1, h2]

theorem restDays_eq_none {s : List GameRecord} {i : ℕ} (h : ¬ (1 ≤ i ∧ i < s.length)) :
    restDays s i = none := by
  simp only [restDays, dif_neg h]

theorem restDays_isSome {s : List GameRecord} {i : ℕ} (h2 : i < s.length) :
    (restDays s i).isSome ↔ 1 ≤ i := by
  by_cases h1 : 1 ≤ i
  · rw [restDays_eq_some h1 h2]
    simpa using h1
  · rw [restDays_eq_none (by tauto)]
    simp
    omega

theorem length_expandingMeansAux (s : ℚ) (n : ℕ) (xs : List ℚ) :
    (expandingMeansAux s n xs).length = xs.length := by
  induction xs generalizing s n with
  | nil => rfl
  | cons x xs ih => simp [expandingMeansAux, ih]

theorem expandingMeansAux_getElem? (xs : List ℚ) (s : ℚ) (n i : ℕ) (h : i < xs.length) :
    (expandingMeansAux s n xs)[i]? = some ((s + (xs.take (i+1)).sum) / ((n + i + 1 : ℕ) : ℚ)) := by
  induction xs generalizing s n i with
  | nil => simp at h
  | cons x xs ih =>
    cases i with
    | zero => simp [expandingMeansAux]
    | succ j =>
      have hj : j < xs.length := by simpa using h
      rw [expandingMeansAux]
      rw [List.getElem?_cons_succ, ih (s + x) (n + 1) j hj]
      rw [List.take_succ_cons, List.sum_cons]
      have hden : (n + 1 + j + 1 : ℕ) = (n + (j + 1) + 1 : ℕ) := by omega
      rw [hden]
      congr 1
      ring_nf

theorem expandingMeans_getElem? (xs : List ℚ) (i : ℕ) (h : i < xs.length) :
    (expandingMeans xs)[i]? = some (listMean (xs.take (i+1))) := by
  rw [expandingMeans, expandingMeansAux_getElem? xs 0 0 i h]
  unfold listMean
  rw [List.length_take]
  have hmin : min (i + 1) xs.length = i + 1 := by omega
  rw [hmin]
  congr 1
  ring_nf

/-! ### Row-drop characterization of the feature engine -/

theorem featRowAt_eq_none_of_lt {sq : ℚ → ℚ} {s : List GameRecord} {i : ℕ}
    (hi : i < s.length) (h9 : i < 9) : featRowAt sq s i = none := by
  have hg : s[i]? = some (s.get ⟨i, hi⟩) := by
    simp [List.getElem?_eq_getElem hi]
  by_cases h4 : i < 4
  · have h5 : rollingMean (s.map (·.pts)) 5 i = none :=
      rollingMean_eq_none (by omega)
    simp [featRowAt, hg, h5]
  · have h5 : rollingMean (s.map (·.pts)) 5 i =
        some (listMean (((s.map (·.pts)).take (i+1)).drop (i+1-5))) :=
      rollingMean_eq_some (by omega) (by simpa using hi)
    have hsd : rollingStd sq (s.map (·.pts)) 5 i =
        some (sampleStd sq (((s.map (·.pts)).take (i+1)).drop (i+1-5))) :=
      rollingStd_eq_some (by omega) (by simpa using hi)
    have h10 : rollingMean (s.map (·.pts)) 10 i = none :=
      rollingMean_eq_none (by omega)
    simp [featRowAt, hg, h5, hsd, h10]

theorem featRowAt_isSome_iff {sq : ℚ → ℚ} {s : List GameRecord} {i : ℕ}
    (hi : i < s.length) : (featRowAt sq s i).isSome ↔ 9 ≤ i := by
  constructor
  · intro h
    by_contra h9
    rw [featRowAt_eq_none_of_lt hi (by omega)] at h
    simp at h
  · intro h9
    have hg : s[i]? = some (s.get ⟨i, hi⟩) := by
      simp [List.getElem?_eq_getElem hi]
    have hmap : i < (s.map (·.pts)).length := by simpa using hi
    have h5 := @rollingMean_eq_some (s.map (·.pts)) 5 i (by omega) hmap
    have h10 := @rollingMean_eq_some (s.map (·.pts)) 10 i (by omega) hmap
    have hsd := @rollingStd_eq_some sq (s.map (·.pts)) 5 i (by omega) hmap
    have hexp := expandingMeans_getElem? (s.map (·.pts)) i hmap
    have hm5 := @rollingMean_eq_some (s.map (·.min)) 5 i (by omega) (by simpa using hi)
    have hm10 := @rollingMean_eq_some (s.map (·.min)) 10 i (by omega) (by simpa using hi)
    have hf5 := @rollingMean_eq_some (s.map (·.fga)) 5 i (by omega) (by simpa using hi)
    have hf10 := @rollingMean_eq_some (s.map (·.fga)) 10 i (by omega) (by simpa using hi)
    have hrd := @restDays_eq_some s i (by omega) hi
    simp [featRowAt, hg, h5, h10, hsd, hexp, hm5, hm10, hf5, hf10, hrd]

theorem featRowAt_isSome_iff_components {sq : ℚ → ℚ} {s : List GameRecord} {i : ℕ}
    (hi : i < s.length) :
    (featRowAt sq s i).isSome ↔
      ((rollingMean (s.map (·.pts)) 5 i).isSome ∧
       (rollingMean (s.map (·.pts)) 10 i).isSome ∧
       (rollingStd sq (s.map (·.pts)) 5 i).isSome ∧
       (rollingMean (s.map (·.min)) 5 i).isSome ∧
       (rollingMean (s.map (·.min)) 10 i).isSome ∧
       (rollingMean (s.map (·.fga)) 5 i).isSome ∧
       (rollingMean (s.map (·.fga)) 10 i).isSome ∧
       (restDays s i).isSome) := by
  rw [featRowAt_isSome_iff hi]
  have hp : i < (s.map (·.pts)).length := by simpa using hi
  have hm : i < (s.map (·.min)).length := by simpa using hi
  have hf : i < (s.map (·.fga)).length := by simpa using hi
  rw [rollingMean_isSome hp, rollingMean_isSome hp, rollingMean_isSome hm,
      rollingMean_isSome hm, rollingMean_isSome hf, rollingMean_isSome hf,
      restDays_isSome hi]
  constructor
  · intro h
    refine ⟨by omega, by omega, ?_, by omega, by omega, by omega, by omega, by omega⟩
    rw [rollingStd_eq_some (by omega) hp]
    rfl
  · rintro ⟨-, h10, -, -, -, -, -, -⟩
    omega

theorem featRowAt_season_pts_avg {sq : ℚ → ℚ} {s : List GameRecord} {i : ℕ} {r : FeatRow}
    (h : featRowAt sq s i = some r) :
    r.season_pts_avg = listMean ((s.map (·.pts)).take (i+1)) := by
  simp only [featRowAt, Option.bind_eq_some] at h
  obtain ⟨g, hg, p5, h5, p10, h10, sd, hsd, sa, hsa, m5, hm5, m10, hm10, f5, hf5,
          f10, hf10, rd, hrd, hr⟩ := h
  have hi : i < s.length := by
    by_contra hc
    rw [List.getElem?_eq_none (by omega)] at hg
    exact Option.noConfusion hg
  have hmap : i < (s.map (·.pts)).length := by simpa using hi
  rw [expandingMeans_getElem? _ i hmap] at hsa
  simp only [Option.some.injEq] at hsa hr
  subst hsa
  subst hr
  rfl

theorem length_sortByDate (df : List GameRecord) : (sortByDate df).length = df.length :=
  List.length_insertionSort _ df

theorem engineer_features_eq_nil {sq : ℚ → ℚ} {df : List GameRecord}
    (h : df.length < 10) : engineer_features sq df = [] := by
  rw [engineer_features, List.filterMap_eq_nil_iff]
  intro i hi
  rw [List.mem_range] at hi
  have hlen : (sortByDate df).length = df.length := length_sortByDate df
  exact featRowAt_eq_none_of_lt (by omega) (by omega)

/-! ### Pipeline skip / abort / success shape -/

theorem process_prop_skip_lookup {env : PipelineEnv} {p : PropLine}
    (h : env.lookup_nba_player_id p.player = none) : process_prop env p = .ok none := by
  simp [process_prop, h]

theorem process_prop_skip_empty {env : PipelineEnv} {p : PropLine} {pid : ℕ}
    (h : env.lookup_nba_player_id p.player = some pid)
    (hdf : env.load_or_fetch_player_games pid p.player = []) :
    process_prop env p = .ok none := by
  simp [process_prop, h, hdf]

theorem process_prop_skip_nofeats {env : PipelineEnv} {p : PropLine} {pid : ℕ}
    (h : env.lookup_nba_player_id p.player = some pid)
    (hfe : engineer_features env.sqrt (env.load_or_fetch_player_games pid p.player) = []) :
    process_prop env p = .ok none := by
  by_cases hdf : (env.load_or_fetch_player_games pid p.player).isEmpty
  · simp [process_prop, h, hdf]
  · simp [process_prop, h, hdf, hfe]

theorem make_predictions_cons_skip {env : PipelineEnv} {p : PropLine} {rest : List PropLine}
    (h : process_prop env p = .ok none) :
    make_predictions env (p :: rest) = make_predictions env rest := by
  simp [make_predictions, h]

theorem make_predictions_cons_error {env : PipelineEnv} {p : PropLine} {rest : List PropLine}
    {e : PredictError} (h : process_prop env p = .error e) :
    make_predictions env (p :: rest) = .error e := by
  simp [make_predictions, h]

theorem process_prop_error_of_meta_missing {env : PipelineEnv} {p : PropLine} {pid : ℕ}
    (h : env.lookup_nba_player_id p.player = some pid)
    (hdf : env.load_or_fetch_player_games pid p.player ≠ [])
    (hfe : engineer_features env.sqrt (env.load_or_fetch_player_games pid p.player) ≠ [])
    (hmeta : env.meta_file = none) :
    process_prop env p = .error .meta_file_missing := by
  have hsome : ((engineer_features env.sqrt
      (env.load_or_fetch_player_games pid p.player)).getLast?).isSome := by
    rw [List.getLast?_isSome]
    exact hfe
  obtain ⟨latest, hlast⟩ := Option.isSome_iff_exists.mp hsome
  simp [process_prop, h, hdf, hlast, hmeta]

theorem process_prop_error_of_mae_missing {env : PipelineEnv} {p : PropLine} {pid : ℕ}
    (h : env.lookup_nba_player_id p.player = some pid)
    (hdf : env.load_or_fetch_player_games pid p.player ≠ [])
    (hfe : engineer_features env.sqrt (env.load_or_fetch_player_games pid p.player) ≠ [])
    (hmeta : env.meta_file = some ⟨none⟩) :
    process_prop env p = .error .mae_key_missing := by
  have hsome : ((engineer_features env.sqrt
      (env.load_or_fetch_player_games pid p.player)).getLast?).isSome := by
    rw [List.getLast?_isSome]
    exact hfe
  obtain ⟨latest, hlast⟩ := Option.isSome_iff_exists.mp hsome
  simp [process_prop, h, hdf, hlast, hmeta]

theorem process_prop_ok_some {env : PipelineEnv} {p : PropLine} {r : PredictionRecord}
    (h : process_prop env p = .ok (some r)) :
    ∃ z, r.pick = pickOf (env.norm_cdf z) ∧ r.confidence = confidenceOf (env.norm_cdf z) := by
  simp only [process_prop] at h
  split at h
  · simp at h
  · split at h
    · simp at h
    · split at h
      · simp at h
      · split at h
        · simp at h
        · split at h
          · simp at h
          · simp only [Except.ok.injEq, Option.some.injEq] at h
            subst h
            exact ⟨_, rfl, rfl⟩

theorem make_predictions_mem {env : PipelineEnv} {props : List PropLine}
    {recs : List PredictionRecord} (h : make_predictions env props = .ok recs)
    {r : PredictionRecord} (hr : r ∈ recs) : ∃ p, process_prop env p = .ok (some r) := by
  induction props generalizing recs with
  | nil =>
    simp only [make_predictions, Except.ok.injEq] at h
    subst h
    simp at hr
  | cons p rest ih =>
    simp only [make_predictions] at h
    cases hp : process_prop env p with
    | error e => rw [hp] at h; simp at h
    | ok o =>
      cases o with
      | none =>
        rw [hp] at h
        exact ih h hr
      | some r0 =>
        rw [hp] at h
        cases hrest : make_predictions env rest with
        | error e => rw [hrest] at h; simp at h
        | ok picks =>
          rw [hrest] at h
          simp only [Except.ok.injEq] at h
          subst h
          rcases List.mem_cons.mp hr with hhd | hmem
          · subst hhd
            exact ⟨p, hp⟩
          · exact ih hrest hmem

/-! ### Ceiling clamp and season-group broadcast -/

theorem confidenceOf_eq_eighty {p : ℚ} (hlo : (159/200 : ℚ) ≤ p) :
    confidenceOf p = 80 := by
  have hp : p ≥ 0.5 := by norm_num; linarith
  simp only [confidenceOf, pickOf, if_pos hp]
  rw [if_neg (by decide : ¬("OVER" : String) = "UNDER")]
  have h80 : 80 ≤ pyRound (p * 100) := by
    apply pyRound_ge_eighty
    nlinarith
  exact min_eq_right h80

theorem lookup_map_pair {l : List String} {k : String} (f : String → ℚ) (hk : k ∈ l) :
    (l.map (fun s => (s, f s))).lookup k = some (f k) := by
  induction l with
  | nil => simp at hk
  | cons a l ih =>
    rw [List.map_cons]
    by_cases hak : k = a
    · subst hak
      simp [List.lookup]
    · have hne : (k == a) = false := by simp [hak]
      rw [List.lookup_cons]
      simp only [hne]
      exact ih (by
        rcases List.mem_cons.mp hk with h | h
        · exact absurd h hak
        · exact h)

theorem seasonTransformMean_getElem? {rows : List TrainRow} {i : ℕ} {g : TrainRow}
    (hg : rows[i]? = some g) :
    (seasonTransformMean rows)[i]? = some (seasonAvgSpecTrain rows g) := by
  have hmem : g ∈ rows := by
    have hi : i < rows.length := by
      by_contra hc
      rw [List.getElem?_eq_none (by omega)] at hg
      exact Option.noConfusion hg
    rw [List.getElem?_eq_getElem hi] at hg
    rw [← (Option.some.injEq _ _).mp hg]
    exact List.getElem_mem hi
  have hkey : g.season ∈ (rows.map (·.season)).dedup :=
    List.mem_dedup.mpr (List.mem_map_of_mem _ hmem)
  rw [seasonTransformMean, List.getElem?_map, hg]
  rw [Option.map_some']
  rw [seasonGroupMeans, lookup_map_pair _ hkey]
  rfl

/-! ### Claim theorems and witnesses -/

/-- C1 counterexample: on a concrete environment whose `model_meta.json` is
missing and a prop that reaches the scoring stage, `make_predictions` aborts
with an uncaught error and produces no record list at all — the Confidence
Engine does not fall back and the run does not continue. -/
theorem C1_missing_meta_counterexample :
    make_predictions envC1 [propEx] = .error .meta_file_missing ∧
    ∀ recs : List PredictionRecord, make_predictions envC1 [propEx] ≠ .ok recs := by
  have he : make_predictions envC1 [propEx] = .error .meta_file_missing := by
    with_unfolding_all rfl
  refine ⟨he, fun recs h => ?_⟩
  rw [he] at h
  exact Except.noConfusion h

/-- C1 amended: whenever the metadata file is missing (or present without an
`mae` value) and any prop reaches the scoring stage, the per-prop metadata
load raises an uncaught error and the whole run fails; there is no fallback
formula. -/
theorem C1_missing_meta_aborts (env : PipelineEnv) (p : PropLine) (rest : List PropLine)
    (pid : ℕ)
    (hmeta : env.meta_file = none ∨ env.meta_file = some ⟨none⟩)
    (hpid : env.lookup_nba_player_id p.player = some pid)
    (hdf : env.load_or_fetch_player_games pid p.player ≠ [])
    (hfe : engineer_features env.sqrt (env.load_or_fetch_player_games pid p.player) ≠ []) :
    ∃ e, make_predictions env (p :: rest) = .error e := by
  rcases hmeta with hm | hm
  · exact ⟨_, make_predictions_cons_error (process_prop_error_of_meta_missing hpid hdf hfe hm)⟩
  · exact ⟨_, make_predictions_cons_error (process_prop_error_of_mae_missing hpid hdf hfe hm)⟩

/-- C1 witness: the amended statement at the concrete aborting environment. -/
theorem C1_missing_meta_witness :
    ∃ e, make_predictions envC1 [propEx] = .error e := by
  have hgames : envC1.load_or_fetch_player_games 1 propEx.player = hist10 := rfl
  have hlen : (engineer_features envC1.sqrt
      (envC1.load_or_fetch_player_games 1 propEx.player)).length = 1 := by
    with_unfolding_all rfl
  apply C1_missing_meta_aborts envC1 propEx [] 1 (Or.inl rfl) rfl
  · rw [hgames]
    simp [hist10]
  · intro hc
    rw [hc] at hlen
    simp at hlen

/-- C2: every record an error-free run emits carries an integer confidence in
the closed range [50, 80]; in particular it never exceeds the explicit
ceiling of 80. -/
theorem C2_confidence_bounded (env : PipelineEnv) (props : List PropLine)
    (recs : List PredictionRecord)
    (hcdf : ∀ x : ℚ, 0 ≤ env.norm_cdf x ∧ env.norm_cdf x ≤ 1)
    (hrun : make_predictions env props = .ok recs) :
    ∀ r ∈ recs, 50 ≤ r.confidence ∧ r.confidence ≤ 80 := by
  intro r hr
  obtain ⟨p, hp⟩ := make_predictions_mem hrun hr
  obtain ⟨z, hpick, hconf⟩ := process_prop_ok_some hp
  rw [hconf]
  exact confidenceOf_bounds _ (hcdf z).1

/-- C2 witness: the bounds at the record of a concrete successful run. -/
theorem C2_confidence_witness : 50 ≤ recW.confidence ∧ recW.confidence ≤ 80 := by
  have hcd : envW.norm_cdf = fun _ => (1/2 : ℚ) := rfl
  have hrun : make_predictions envW [propEx] = .ok [recW] := by
    with_unfolding_all rfl
  refine C2_confidence_bounded envW [propEx] [recW] ?_ hrun recW (by simp)
  rw [hcd]
  intro x
  norm_num

/-- C3: the Confidence Engine on `predicted=25, line=20, recent_std=4,
season_std=5, mae=3` computes `std = 4.3`, `effective_std = sqrt(27.49)`,
`z = 5 / sqrt(27.49)` and, for any `cdf` agreeing with the standard normal
CDF bounds `0.795 ≤ Φ(x) ≤ 1` for `x ≥ 0.95` (true of Φ since
`Φ(0.95) ≈ 0.829`), picks OVER with confidence clamped to exactly 80.  The
hypotheses on `sq` are true of the real square root since
`5.24² = 27.4576 ≤ 27.49 ≤ 27.5625 = 5.25²`. -/
theorem C3_confidence_engine (sq cdf : ℚ → ℚ)
    (hsq_lo : (131/25 : ℚ) ≤ sq (2749/100))
    (hsq_hi : sq (2749/100) ≤ (21/4 : ℚ))
    (hcdf : ∀ x : ℚ, (19/20 : ℚ) ≤ x → (159/200 : ℚ) ≤ cdf x ∧ cdf x ≤ 1) :
    stdCombined 4 5 = 43/10 ∧
    effective_stdOf sq 4 5 3 = sq (2749/100) ∧
    zOf sq 25 20 4 5 3 = 5 / sq (2749/100) ∧
    pickOf (cdf (zOf sq 25 20 4 5 3)) = "OVER" ∧
    confidenceOf (cdf (zOf sq 25 20 4 5 3)) = 80 := by
  have h1 : stdCombined 4 5 = 43/10 := by
    rw [stdCombined, max_eq_left (by norm_num)]
    norm_num
  have h2 : effective_stdOf sq 4 5 3 = sq (2749/100) := by
    rw [effective_stdOf, h1]
    norm_num
  have h3 : zOf sq 25 20 4 5 3 = 5 / sq (2749/100) := by
    rw [zOf, h2, max_eq_left (by norm_num; linarith)]
    norm_num
  have hspos : (0 : ℚ) < sq (2749/100) := by linarith
  have hz : (19/20 : ℚ) ≤ zOf sq 25 20 4 5 3 := by
    rw [h3, le_div_iff₀ hspos]
    nlinarith
  obtain ⟨hclo, hchi⟩ := hcdf _ hz
  refine ⟨h1, h2, h3, ?_, confidenceOf_eq_eighty hclo⟩
  rw [pickOf, if_pos (by norm_num; linarith)]

/-- C3 witness: the engine conclusions at concrete `sq`/`cdf` satisfying the
stated square-root and CDF facts. -/
theorem C3_confidence_witness :
    stdCombined 4 5 = 43/10 ∧
    effective_stdOf sqW 4 5 3 = sqW (2749/100) ∧
    zOf sqW 25 20 4 5 3 = 5 / sqW (2749/100) ∧
    pickOf (cdfW (zOf sqW 25 20 4 5 3)) = "OVER" ∧
    confidenceOf (cdfW (zOf sqW 25 20 4 5 3)) = 80 := by
  apply C3_confidence_engine sqW cdfW
  · norm_num [sqW]
  · norm_num [sqW]
  · intro x hx
    rw [cdfW]
    rw [if_pos hx]
    norm_num

/-- C4: the pick is OVER exactly when `probability_over ≥ 0.5`; at exactly
0.5 the pick is OVER (never UNDER) and the reported confidence is 50. -/
theorem C4_tie_break :
    (∀ p : ℚ, pickOf p = "OVER" ↔ (1/2 : ℚ) ≤ p) ∧
    pickOf (1/2) = "OVER" ∧ confidenceOf (1/2) = 50 := by
  refine ⟨fun p => ?_, ?_, ?_⟩
  · constructor
    · intro h
      rw [pickOf] at h
      by_cases hp : p ≥ 0.5
      · norm_num at hp
        linarith
      · rw [if_neg hp] at h
        exact absurd h (by decide)
    · intro h
      rw [pickOf, if_pos (by norm_num; linarith)]
  · rw [pickOf, if_pos (by norm_num)]
  · with_unfolding_all rfl

/-- C4 witness: the tie case itself. -/
theorem C4_tie_break_witness : pickOf (1/2) = "OVER" ∧ confidenceOf (1/2) = 50 :=
  ⟨C4_tie_break.2.1, C4_tie_break.2.2⟩

/-- C5: the feature engine drops exactly the rows with an undefined derived
column — a `rolling(k)` column is defined iff at least `k-1` rows precede,
`rest_days` is defined iff the row is not the first, a row survives iff all
those columns are defined — and any history shorter than 5 games yields no
eligible row at all. -/
theorem C5_row_drop :
    (∀ (xs : List ℚ) (k i : ℕ), i < xs.length →
        ((rollingMean xs k i).isSome ↔ k - 1 ≤ i)) ∧
    (∀ (s : List GameRecord) (i : ℕ), i < s.length →
        ((restDays s i).isSome ↔ 1 ≤ i)) ∧
    (∀ (sq : ℚ → ℚ) (s : List GameRecord) (i : ℕ), i < s.length →
        ((featRowAt sq s i).isSome ↔
          ((rollingMean (s.map (·.pts)) 5 i).isSome ∧
           (rollingMean (s.map (·.pts)) 10 i).isSome ∧
           (rollingStd sq (s.map (·.pts)) 5 i).isSome ∧
           (rollingMean (s.map (·.min)) 5 i).isSome ∧
           (rollingMean (s.map (·.min)) 10 i).isSome ∧
           (rollingMean (s.map (·.fga)) 5 i).isSome ∧
           (rollingMean (s.map (·.fga)) 10 i).isSome ∧
           (restDays s i).isSome))) ∧
    (∀ (sq : ℚ → ℚ) (df : List GameRecord), df.length < 5 →
        engineer_features sq df = []) :=
  ⟨fun _ _ _ h => rollingMean_isSome h,
   fun _ _ h => restDays_isSome h,
   fun _ _ _ h => featRowAt_isSome_iff_components h,
   fun _ _ h => engineer_features_eq_nil (by omega)⟩

/-- C5 witness: the window characterization and the short-history emptiness
at concrete inputs. -/
theorem C5_row_drop_witness :
    ((rollingMean [1, 2, 3, 4, 5] 5 4).isSome ↔ 4 ≤ 4) ∧
    engineer_features (fun _ => 0) (hist10.take 4) = [] := by
  constructor
  · exact C5_row_drop.1 [1, 2, 3, 4, 5] 5 4 (by norm_num)
  · apply C5_row_drop.2.2.2
    rw [hist10]
    norm_num

/-- C6: a prop whose player name does not match, whose history is empty, or
whose feature computation yields no eligible row is skipped without error,
contributes no record, and the run continues with the remaining props. -/
theorem C6_skippable_prop (env : PipelineEnv) (p : PropLine) (rest : List PropLine)
    (hskip : env.lookup_nba_player_id p.player = none ∨
      ∀ pid, env.lookup_nba_player_id p.player = some pid →
        (env.load_or_fetch_player_games pid p.player = [] ∨
         engineer_features env.sqrt (env.load_or_fetch_player_games pid p.player) = [])) :
    process_prop env p = .ok none ∧
    make_predictions env (p :: rest) = make_predictions env rest := by
  have hok : process_prop env p = .ok none := by
    rcases hskip with h | h
    · exact process_prop_skip_lookup h
    · cases hl : env.lookup_nba_player_id p.player with
      | none => exact process_prop_skip_lookup hl
      | some pid =>
        rcases h pid hl with hdf | hfe
        · exact process_prop_skip_empty hl hdf
        · exact process_prop_skip_nofeats hl hfe
  exact ⟨hok, make_predictions_cons_skip hok⟩

/-- C6 witness: a concrete unmatched player is skipped and the run equals the
run on the remaining props. -/
theorem C6_skippable_witness :
    process_prop envSkip propEx = .ok none ∧
    make_predictions envSkip [propEx] = make_predictions envSkip [] :=
  C6_skippable_prop envSkip propEx [] (Or.inl rfl)

/-- C7: the `season_pts_avg` a surviving prediction row carries is the
expanding (running) mean of points up to and including the reference game,
while the training variant broadcasts the mean of points over rows sharing
the same SEASON label. -/
theorem C7_season_avg_modes :
    (∀ (sq : ℚ → ℚ) (s : List GameRecord) (i : ℕ) (r : FeatRow),
        featRowAt sq s i = some r →
        r.season_pts_avg = seasonAvgSpecLive (s.map (·.pts)) i) ∧
    (∀ (rows : List TrainRow) (i : ℕ) (g : TrainRow), rows[i]? = some g →
        (seasonTransformMean rows)[i]? = some (seasonAvgSpecTrain rows g)) :=
  ⟨fun _ _ _ _ h => featRowAt_season_pts_avg h,
   fun _ _ _ h => seasonTransformMean_getElem? h⟩

/-- C7 witness: both season-average modes at concrete data. -/
theorem C7_season_avg_witness :
    r10ex.season_pts_avg = seasonAvgSpecLive (hist10.map (·.pts)) 9 ∧
    (seasonTransformMean trainRowsEx)[0]? =
      some (seasonAvgSpecTrain trainRowsEx ⟨"2024-25", 10⟩) := by
  constructor
  · exact C7_season_avg_modes.1 (fun _ => 0) hist10 9 r10ex (by with_unfolding_all rfl)
  · exact C7_season_avg_modes.2 trainRowsEx 0 ⟨"2024-25", 10⟩ (by with_unfolding_all rfl)

/-- C8: `home_flag` is 1 exactly when the matchup text contains the
home-game marker `vs`, else 0; `"LAL vs. BOS"` yields 1 and `"LAL @ BOS"`
yields 0. -/
theorem C8_home_flag :
    (∀ m : String, (homeFlag m = 1 ↔ containsVs m = true) ∧
        (homeFlag m = 0 ↔ containsVs m = false)) ∧
    homeFlag ("LAL vs. BOS") = 1 ∧ homeFlag ("LAL @ BOS") = 0 := by
  refine ⟨fun m => ?_, ?_, ?_⟩
  · cases hc : containsVs m <;> simp [homeFlag, hc]
  · with_unfolding_all rfl
  · with_unfolding_all rfl

/-- C8 witness: the two concrete matchup strings. -/
theorem C8_home_flag_witness :
    homeFlag ("LAL vs. BOS") = 1 ∧ homeFlag ("LAL @ BOS") = 0 :=
  ⟨C8_home_flag.2.1, C8_home_flag.2.2⟩

/-- C9: a history of fewer than 10 games leaves every row with an undefined
10-game rolling mean, so the feature engine returns no rows and the prop is
skipped with no record — a strictly stronger cutoff than 5 games. -/
theorem C9_ten_game_minimum (env : PipelineEnv) (p : PropLine) (rest : List PropLine)
    (pid : ℕ)
    (hpid : env.lookup_nba_player_id p.player = some pid)
    (hlen : (env.load_or_fetch_player_games pid p.player).length < 10) :
    engineer_features env.sqrt (env.load_or_fetch_player_games pid p.player) = [] ∧
    process_prop env p = .ok none ∧
    make_predictions env (p :: rest) = make_predictions env rest := by
  have hfe := @engineer_features_eq_nil env.sqrt
    (env.load_or_fetch_player_games pid p.player) hlen
  have hok := process_prop_skip_nofeats hpid hfe
  exact ⟨hfe, hok, make_predictions_cons_skip hok⟩

/-- C9 witness: the nine-game history is dropped wholesale and its prop
skipped. -/
theorem C9_ten_game_witness :
    engineer_features env9.sqrt (env9.load_or_fetch_player_games 1 propEx.player) = [] ∧
    process_prop env9 propEx = .ok none ∧
    make_predictions env9 [propEx] = make_predictions env9 [] := by
  apply C9_ten_game_minimum env9 propEx [] 1 rfl
  have h9 : (env9.load_or_fetch_player_games 1 propEx.player).length = 9 := by
    with_unfolding_all rfl
  omega

/-- C10: the rounded percentage on the majority side is never below 50
before the ceiling clamp, so every emitted record's confidence lies in
[50, 80]. -/
theorem C10_confidence_floor (env : PipelineEnv) (props : List PropLine)
    (recs : List PredictionRecord)
    (hcdf : ∀ x : ℚ, 0 ≤ env.norm_cdf x ∧ env.norm_cdf x ≤ 1)
    (hrun : make_predictions env props = .ok recs) :
    (∀ p : ℚ, 0 ≤ p →
        50 ≤ (if pickOf p = "UNDER" then 100 - pyRound (p * 100) else pyRound (p * 100))) ∧
    ∀ r ∈ recs, 50 ≤ r.confidence ∧ r.confidence ≤ 80 := by
  constructor
  · intro p hp
    by_cases h : pickOf p = "UNDER"
    · rw [if_pos h]
      have hplt : ¬ (p ≥ 0.5) := by
        intro hge
        rw [pickOf, if_pos hge] at h
        exact absurd h (by decide)
      push_neg at hplt
      have hle : pyRound (p * 100) ≤ 50 := by
        apply pyRound_le_intCast
        push_cast
        norm_num at hplt
        linarith
      omega
    · rw [if_neg h]
      have hge : p ≥ 0.5 := by
        by_contra hc
        rw [pickOf, if_neg hc] at h
        exact h rfl
      apply intCast_le_pyRound
      push_cast
      norm_num at hge
      linarith
  · intro r hr
    obtain ⟨pr, hp⟩ := make_predictions_mem hrun hr
    obtain ⟨z, hpick, hconf⟩ := process_prop_ok_some hp
    rw [hconf]
    exact confidenceOf_bounds _ (hcdf z).1

/-- C10 witness: the pre-clamp floor at a concrete probability and the
record bounds of a concrete run. -/
theorem C10_confidence_witness :
    (50 ≤ (if pickOf (7/10) = "UNDER" then 100 - pyRound ((7/10) * 100)
           else pyRound ((7/10) * 100))) ∧
    (50 ≤ recW.confidence ∧ recW.confidence ≤ 80) := by
  have hcd : envW.norm_cdf = fun _ => (1/2 : ℚ) := rfl
  have hcdf : ∀ x : ℚ, 0 ≤ envW.norm_cdf x ∧ envW.norm_cdf x ≤ 1 := by
    rw [hcd]
    intro x
    norm_num
  have hrun : make_predictions envW [propEx] = .ok [recW] := by
    with_unfolding_all rfl
  exact ⟨(C10_confidence_floor envW [propEx] [recW] hcdf hrun).1 (7/10) (by norm_num),
         (C10_confidence_floor envW [propEx] [recW] hcdf hrun).2 recW (by simp)⟩

end BucketProps
